import Mathlib

/-!
Verification of the generic FIFO queue in `src/queue.hpp` (class `Queue<T>`).

The queue owns a raw buffer of `m_Capacity` element slots; slots
`[0, m_Size)` hold the live elements in FIFO order (slot 0 is the front).
In the value-level embedding below, `m_Container` is the list of live
elements (slot `i` of the C++ buffer is element `i` of the list); the
uninitialized slots `[m_Size, m_Capacity)` hold no values and are not
represented.  `m_Size` and `m_Capacity` are carried exactly as the C++
member fields.  Fallible operations (`Reallocate` throws
`std::invalid_argument`; `Push` may call it) return `Except String`.

The move constructor and the move assignment operator of the source
mix up the `m_Container` and `m_Capacity` members; those two operations
are embedded separately at the pointer level (`QueueRep` below), taking
the source text at face value, to exhibit the divergence.
-/

/-- Source constant `Queue<T>::INITIAL_CAPACITY = 1` (queue.hpp line 186). -/
def INITIAL_CAPACITY : Nat := 1

/-- Value-level state of `Queue<T>` (queue.hpp lines 182-184):
`m_Container` is the list of live elements occupying buffer slots
`[0, m_Size)` in order, `m_Size` and `m_Capacity` are the size and
capacity member fields. -/
structure Queue (T : Type) where
  m_Container : List T
  m_Size : Nat
  m_Capacity : Nat
deriving Repr, DecidableEq

/-- Default constructor (queue.hpp lines 22-26): allocates an
uninitialized buffer of `INITIAL_CAPACITY` slots (no live elements),
size 0, capacity `INITIAL_CAPACITY`. -/
def Queue.init (T : Type) : Queue T :=
  ⟨[], 0, INITIAL_CAPACITY⟩

/-- Copy constructor (queue.hpp lines 34-41): allocates a buffer of
`other.m_Capacity` slots and copy-constructs `other`'s elements at
indices `0 ≤ i < other.m_Size`, in order; size and capacity are copied. -/
def Queue.copyCtor {T : Type} (other : Queue T) : Queue T :=
  ⟨other.m_Container.take other.m_Size, other.m_Size, other.m_Capacity⟩

/-- Copy assignment (queue.hpp lines 71-86).  The `same` flag embeds the
pointer-identity test `this == &other`; when it holds the operator
returns `*this` untouched.  Otherwise it clears and frees the current
buffer, allocates one of `other.m_Capacity` slots, and copy-constructs
`other`'s first `other.m_Size` elements, in order. -/
def Queue.copyAssign {T : Type} (q other : Queue T) (same : Bool) : Queue T :=
  if same then q
  else ⟨other.m_Container.take other.m_Size, other.m_Size, other.m_Capacity⟩

/-- Observer `Empty` (queue.hpp line 110): `m_Size == 0`. -/
def Queue.Empty {T : Type} (q : Queue T) : Bool :=
  q.m_Size == 0

/-- Observer `Size` (queue.hpp line 111). -/
def Queue.Size {T : Type} (q : Queue T) : Nat :=
  q.m_Size

/-- Observer `Capacity` (queue.hpp line 112). -/
def Queue.Capacity {T : Type} (q : Queue T) : Nat :=
  q.m_Capacity

/-- Observer `Front` (queue.hpp lines 115-116): returns `m_Container[0]`.
The source does not guard emptiness (reading slot 0 of an empty queue is
undefined behavior), so the embedding returns `Option T`: `some` exactly
on the defined, nonempty case. -/
def Queue.Front {T : Type} (q : Queue T) : Option T :=
  q.m_Container.head?

/-- Observer `Back` (queue.hpp lines 117-118): returns
`m_Container[m_Size - 1]`, unguarded like `Front`. -/
def Queue.Back {T : Type} (q : Queue T) : Option T :=
  q.m_Container.get? (q.m_Size - 1)

/-- Internal `Reallocate(newCapacity)` (queue.hpp lines 194-212): throws
`std::invalid_argument` when `newCapacity <= m_Capacity`, before any
mutation.  Otherwise it allocates a buffer of `newCapacity` slots,
move-constructs each live element into it in order (destroying each
source object after its move), frees the old buffer, and adopts the new
buffer and capacity — so the live elements keep their values and
positions and only the capacity changes. -/
def Queue.Reallocate {T : Type} (q : Queue T) (newCapacity : Nat) : Except String (Queue T) :=
  if newCapacity ≤ q.m_Capacity then
    Except.error "The new capacity must be larger than the current."
  else
    Except.ok ⟨q.m_Container, q.m_Size, newCapacity⟩

/-- Mutator `Push(value)` (queue.hpp lines 126-133 by copy, 141-148 by
move; both overloads produce the same abstract state): if
`m_Size >= m_Capacity`, first `Reallocate(m_Capacity * 2)` (an exception
from it propagates); then construct the new element in slot `m_Size`
from the argument and increment `m_Size`. -/
def Queue.Push {T : Type} (q : Queue T) (value : T) : Except String (Queue T) :=
  match (if q.m_Size ≥ q.m_Capacity then Queue.Reallocate q (q.m_Capacity * 2) else Except.ok q) with
  | Except.error e => Except.error e
  | Except.ok q' => Except.ok ⟨q'.m_Container ++ [value], q'.m_Size + 1, q'.m_Capacity⟩

/-- The shift loop of `Pop` (queue.hpp lines 160-165) on the live slots:
for each `i` below the decremented size, slot `i`'s object is destroyed
and reconstructed by moving slot `i + 1` into it; finally the object
left in the last live slot is destroyed.  On the list of live elements
this takes `x :: y :: rest` to `y :: popShift (y :: rest)`. -/
def popShift {T : Type} : List T → List T
  | [] => []
  | [_] => []
  | _ :: y :: rest => y :: popShift (y :: rest)

/-- Mutator `Pop()` (queue.hpp lines 155-166): returns immediately if
`m_Size == 0`; otherwise decrements `m_Size` and runs the shift loop, so
the front element is gone and the rest move down one slot. -/
def Queue.Pop {T : Type} (q : Queue T) : Queue T :=
  if q.m_Size = 0 then q
  else ⟨popShift q.m_Container, q.m_Size - 1, q.m_Capacity⟩

/-- Mutator `Clear()` (queue.hpp lines 173-179): destroys every live
element (slots `[0, m_Size)`) and sets `m_Size` to 0; the buffer and
`m_Capacity` are untouched. -/
def Queue.Clear {T : Type} (q : Queue T) : Queue T :=
  ⟨[], 0, q.m_Capacity⟩

/-- Well-formedness of a queue state: the size field counts the live
elements, and the data-model invariants `m_Size ≤ m_Capacity` and
`m_Capacity ≥ 1` (capacity starts at `INITIAL_CAPACITY = 1` and only
grows) hold.  Every state reachable through the public operations
satisfies `Inv`. -/
def Queue.Inv {T : Type} (q : Queue T) : Prop :=
  q.m_Size = q.m_Container.length ∧ q.m_Size ≤ q.m_Capacity ∧ 0 < q.m_Capacity

instance {T : Type} (q : Queue T) : Decidable (q.Inv) := by
  unfold Queue.Inv; infer_instance

/-! ## Pointer-level embedding of the move operations

The move constructor (queue.hpp lines 49-57) and move assignment
(lines 94-107) confuse `m_Container` with `m_Capacity`: the initializer
`m_Container(other.m_Capacity)` and the statement
`m_Container = other.m_Capacity` store the numeric capacity into the
`T*` member, and the resets `other.m_Capacity = ::operator new(...)`
followed by `other.m_Capacity = INITIAL_CAPACITY` store the fresh
allocation into the capacity field and immediately overwrite it, never
touching `other.m_Container`.  (These int/pointer assignments are
ill-formed C++; the embedding takes the member-to-member data flow at
face value, with addresses as `Nat`.) -/

/-- Pointer-level state of `Queue<T>`: `m_Container` is the address held
by the `T*` member, `m_Size` and `m_Capacity` the two `std::size_t`
members. -/
structure QueueRep where
  m_Container : Nat
  m_Size : Nat
  m_Capacity : Nat
deriving Repr, DecidableEq

/-- Move constructor (queue.hpp lines 49-57), as written: the new object
gets `⟨other.m_Capacity, other.m_Size, other.m_Capacity⟩` from the
initializer list; the body sets `other.m_Capacity` to the fresh
allocation `fresh` (returned by `::operator new`), `other.m_Size` to 0,
then overwrites `other.m_Capacity` with `INITIAL_CAPACITY`.  The result
pairs the constructed object with the final state of `other`; `fresh`
survives nowhere (the allocation leaks), and `other.m_Container` is
never assigned. -/
def moveCtorRep (other : QueueRep) (fresh : Nat) : QueueRep × QueueRep :=
  let constructed : QueueRep := ⟨other.m_Capacity, other.m_Size, other.m_Capacity⟩
  let otherAfterBody : QueueRep :=
    { m_Container := other.m_Container
      m_Size := 0
      m_Capacity := INITIAL_CAPACITY }
  let _ := fresh
  (constructed, otherAfterBody)

/-- Move assignment (queue.hpp lines 94-107), as written: after the
self-assignment guard `this == &other` (the `same` flag), the body runs
`m_Container = other.m_Capacity; m_Size = other.m_Size;
m_Capacity = other.m_Capacity;` — with no `Clear()` and no
`::operator delete` of the current buffer — then resets `other` exactly
as the move constructor does (`fresh` again leaks and
`other.m_Container` is never assigned).  Returns the final
`(*this, other)` pair. -/
def moveAssignRep (q other : QueueRep) (same : Bool) (fresh : Nat) : QueueRep × QueueRep :=
  if same then (q, other)
  else
    let _ := fresh
    (⟨other.m_Capacity, other.m_Size, other.m_Capacity⟩,
     ⟨other.m_Container, 0, INITIAL_CAPACITY⟩)

/-- Copy constructor at the pointer level (queue.hpp lines 34-41): the
new object's `m_Container` is the address `fresh` returned by
`::operator new` — a region disjoint from every live allocation, in
particular from `other`'s buffer — and `other` is read but never
written.  The result pairs the constructed object with the (unchanged)
source. -/
def copyCtorRep (other : QueueRep) (fresh : Nat) : QueueRep × QueueRep :=
  (⟨fresh, other.m_Size, other.m_Capacity⟩, other)

/-! ## Operation sequences and the FIFO model -/

/-- A public mutating operation of the FIFO interface. -/
inductive Op (T : Type) where
  | push (v : T)
  | pop
deriving Repr, DecidableEq

/-- One operation applied to the embedded queue. -/
def step {T : Type} (q : Queue T) : Op T → Except String (Queue T)
  | Op.push v => q.Push v
  | Op.pop => Except.ok q.Pop

/-- A sequence of operations run on a default-constructed queue. -/
def run {T : Type} (ops : List (Op T)) : Except String (Queue T) :=
  ops.foldlM step (Queue.init T)

/-- Modelled from the spec: one step of the ideal FIFO sequence
("elements leave in the order they arrived") — a push appends at the
back, a pop removes the front. -/
def specStep {T : Type} (l : List T) : Op T → List T
  | Op.push v => l ++ [v]
  | Op.pop => l.tail

/-- Modelled from the spec: the ideal FIFO contents after a sequence of
operations starting from an empty queue. -/
def specRun {T : Type} (ops : List (Op T)) : List T :=
  ops.foldl specStep []

/-! ## Helper lemmas -/

/-- The shift loop removes exactly the front element: `popShift` is
`List.tail`. -/
theorem popShift_eq_tail {T : Type} (l : List T) : popShift l = l.tail := by
  match l with
  | [] => rfl
  | [_] => rfl
  | _ :: y :: rest =>
    show y :: popShift (y :: rest) = y :: rest
    rw [popShift_eq_tail (y :: rest), List.tail_cons]

/-- On a well-formed queue, `Push` never throws and yields the expected
state: the value appended at the back, the size incremented, and the
capacity doubled exactly when the buffer was full. -/
theorem push_spec {T : Type} (q : Queue T) (v : T) (h : q.Inv) :
    q.Push v = Except.ok ⟨q.m_Container ++ [v], q.m_Size + 1,
      if q.m_Capacity ≤ q.m_Size then q.m_Capacity * 2 else q.m_Capacity⟩ := by
  obtain ⟨-, hle, hpos⟩ := h
  unfold Queue.Push Queue.Reallocate
  by_cases hfull : q.m_Capacity ≤ q.m_Size
  · have hgt : ¬ q.m_Capacity * 2 ≤ q.m_Capacity := by omega
    simp [ge_iff_le, hfull, hgt]
  · simp [ge_iff_le, hfull]

/-- `Push` preserves well-formedness. -/
theorem push_inv {T : Type} (q q' : Queue T) (v : T) (h : q.Inv)
    (hok : q.Push v = Except.ok q') : q'.Inv := by
  rw [push_spec q v h] at hok
  obtain ⟨hlen, hle, hpos⟩ := h
  cases hok
  refine ⟨by simpa using hlen, ?_, ?_⟩ <;>
    · dsimp only
      split <;> omega

/-- `Pop` on a well-formed queue removes the front element (its
container becomes the tail) and preserves well-formedness and the
capacity. -/
theorem pop_spec {T : Type} (q : Queue T) (h : q.Inv) :
    q.Pop.m_Container = q.m_Container.tail ∧ q.Pop.Inv ∧
      q.Pop.m_Capacity = q.m_Capacity := by
  obtain ⟨hlen, hle, hpos⟩ := h
  unfold Queue.Pop
  by_cases hz : q.m_Size = 0
  · have hnil : q.m_Container = [] := by
      cases hc : q.m_Container with
      | nil => rfl
      | cons a l => rw [hc] at hlen; simp at hlen; omega
    rw [if_pos hz, hnil]
    exact ⟨rfl, ⟨hlen, hle, hpos⟩, rfl⟩
  · rw [if_neg hz]
    refine ⟨popShift_eq_tail _, ⟨?_, ?_, ?_⟩, rfl⟩
    · dsimp only
      rw [popShift_eq_tail, List.length_tail]
      omega
    · dsimp only
      omega
    · dsimp only
      omega

/-- Running a sequence of operations from any well-formed state never
throws, preserves well-formedness, and tracks the ideal FIFO model
state started from the queue's live contents. -/
theorem run_aux {T : Type} (ops : List (Op T)) :
    ∀ q : Queue T, q.Inv → ∃ q', ops.foldlM step q = Except.ok q' ∧
      q'.Inv ∧ q'.m_Container = ops.foldl specStep q.m_Container := by
  induction ops with
  | nil => intro q h; exact ⟨q, rfl, h, rfl⟩
  | cons op rest ih =>
    intro q h
    match op with
    | Op.push v =>
      obtain ⟨q', hok, hinv', hcont⟩ :=
        ih ⟨q.m_Container ++ [v], q.m_Size + 1,
          if q.m_Capacity ≤ q.m_Size then q.m_Capacity * 2 else q.m_Capacity⟩
          (push_inv q _ v h (push_spec q v h))
      refine ⟨q', ?_, hinv', ?_⟩
      · rw [List.foldlM_cons]
        show (step q (Op.push v)) >>= _ = _
        rw [show step q (Op.push v) = q.Push v from rfl, push_spec q v h]
        exact hok
      · rw [List.foldl_cons]
        exact hcont.trans (by rw [show specStep q.m_Container (Op.push v) = q.m_Container ++ [v] from rfl])
    | Op.pop =>
      obtain ⟨hcont0, hinv0, -⟩ := pop_spec q h
      obtain ⟨q', hok, hinv', hcont⟩ := ih q.Pop hinv0
      refine ⟨q', ?_, hinv', ?_⟩
      · rw [List.foldlM_cons]
        show (step q Op.pop) >>= _ = _
        rw [show step q Op.pop = Except.ok q.Pop from rfl]
        exact hok
      · rw [List.foldl_cons]
        rw [show specStep q.m_Container Op.pop = q.m_Container.tail from rfl, ← hcont0]
        exact hcont

/-- The ideal FIFO model maps a run of pushes to appending the pushed
values in order. -/
theorem specRun_pushes {T : Type} (vs : List T) :
    ∀ acc : List T, (vs.map Op.push).foldl specStep acc = acc ++ vs := by
  induction vs with
  | nil => intro acc; simp
  | cons v rest ih =>
    intro acc
    simp only [List.map_cons, List.foldl_cons]
    rw [ih (specStep acc (Op.push v))]
    simp [specStep]

/-- The ideal FIFO model maps `j` pops to dropping the first `j`
elements. -/
theorem specRun_pops {T : Type} (j : Nat) :
    ∀ acc : List T, (List.replicate j (@Op.pop T)).foldl specStep acc = acc.drop j := by
  induction j with
  | zero => intro acc; simp
  | succ n ih =>
    intro acc
    rw [List.replicate_succ, List.foldl_cons, ih]
    rw [show specStep acc Op.pop = acc.tail from rfl, ← List.drop_one, List.drop_drop]
    rw [Nat.add_comm]

/-! ## Claims -/

/-- C1: for every sequence of Push and Pop operations starting from a
default-constructed queue, the run never throws and the queue's live
contents coincide with the ideal FIFO model (push appends at the back,
pop removes the front), so elements are removed in strict FIFO order;
in particular, after pushing `vs` and popping `j ≤ vs.length` times,
the live contents are `vs.drop j` and the front element observed by the
next pop is the `j`-th pushed value. -/
theorem fifo_order (T : Type) :
    (∀ ops : List (Op T), ∃ q, run ops = Except.ok q ∧
      q.m_Container = specRun ops ∧ q.Size = (specRun ops).length) ∧
    (∀ (vs : List T) (j : Nat), j ≤ vs.length →
      ∃ q, run (vs.map Op.push ++ List.replicate j Op.pop) = Except.ok q ∧
        q.m_Container = vs.drop j ∧ q.Front = (vs.drop j).head?) := by
  have hinit : (Queue.init T).Inv := ⟨rfl, Nat.zero_le _, Nat.one_pos⟩
  constructor
  · intro ops
    obtain ⟨q, hok, hinv, hcont⟩ := run_aux ops (Queue.init T) hinit
    exact ⟨q, hok, hcont, by rw [Queue.Size, hinv.1, hcont]; rfl⟩
  · intro vs j hj
    obtain ⟨q, hok, hinv, hcont⟩ :=
      run_aux (vs.map Op.push ++ List.replicate j Op.pop) (Queue.init T) hinit
    rw [List.foldl_append, specRun_pushes, specRun_pops] at hcont
    have hnil : (Queue.init T).m_Container = [] := rfl
    rw [hnil, List.nil_append] at hcont
    exact ⟨q, hok, hcont, by rw [Queue.Front, hcont]⟩

/-- Witness for C1 at a concrete input: push 1, 2, 3 then pop once; the
remaining contents are `[2, 3]` and the front is 2. -/
theorem fifo_order_witness :
    ∃ q, run ([1, 2, 3].map Op.push ++ List.replicate 1 Op.pop) = Except.ok q ∧
      q.m_Container = [2, 3] ∧ q.Front = some 2 := by
  have h := (fifo_order Nat).2 [1, 2, 3] 1 (by decide)
  simpa using h

/-- C4: `Reallocate(newCapacity)` with `newCapacity ≤ m_Capacity` throws
`std::invalid_argument` before performing any mutation (the embedding
returns only the error, leaving the caller's state untouched), while
`newCapacity > m_Capacity` does not fail this way: it succeeds with the
same live elements and size and the new capacity. -/
theorem reallocate_rejects_nonincreasing (T : Type) (q : Queue T) (newCapacity : Nat) :
    (newCapacity ≤ q.m_Capacity →
      q.Reallocate newCapacity =
        Except.error "The new capacity must be larger than the current.") ∧
    (q.m_Capacity < newCapacity →
      q.Reallocate newCapacity = Except.ok ⟨q.m_Container, q.m_Size, newCapacity⟩) := by
  unfold Queue.Reallocate
  constructor
  · intro h
    rw [if_pos h]
  · intro h
    rw [if_neg (by omega)]

/-- Witness for C4 at a concrete input: a queue of capacity 2 rejects
reallocation to 2 and accepts reallocation to 3. -/
theorem reallocate_rejects_nonincreasing_witness :
    Queue.Reallocate (⟨[5], 1, 2⟩ : Queue Nat) 2 =
      Except.error "The new capacity must be larger than the current." ∧
    Queue.Reallocate (⟨[5], 1, 2⟩ : Queue Nat) 3 = Except.ok ⟨[5], 1, 3⟩ :=
  ⟨(reallocate_rejects_nonincreasing Nat ⟨[5], 1, 2⟩ 2).1 (by decide),
   (reallocate_rejects_nonincreasing Nat ⟨[5], 1, 2⟩ 3).2 (by decide)⟩

/-- C7: on an empty queue (`m_Size = 0`, hence no live elements), `Pop`
and `Clear` return normally (both are total functions in the embedding,
matching the throw-free source paths) and leave the entire state —
container, size, and capacity — unchanged. -/
theorem pop_clear_empty_noop (T : Type) (q : Queue T) (h : q.Inv)
    (hsize : q.m_Size = 0) : q.Pop = q ∧ q.Clear = q := by
  have hnil : q.m_Container = [] := by
    have := h.1
    rw [hsize] at this
    exact (List.eq_nil_of_length_eq_zero this.symm)
  constructor
  · unfold Queue.Pop
    rw [if_pos hsize]
  · unfold Queue.Clear
    cases q
    simp_all

/-- Witness for C7 at a concrete input: the default-constructed queue. -/
theorem pop_clear_empty_noop_witness :
    (Queue.init Nat).Pop = Queue.init Nat ∧ (Queue.init Nat).Clear = Queue.init Nat :=
  pop_clear_empty_noop Nat (Queue.init Nat) (by decide) rfl

/-- C9: `Clear` destroys all live elements and sets the size to 0 while
the capacity keeps its value from immediately before the call; in
particular, clearing the 3-element queue obtained by pushing 1, 2, 3
yields size 0 with capacity unchanged (4). -/
theorem clear_frame (T : Type) :
    (∀ q : Queue T, q.Clear.Size = 0 ∧ q.Clear.m_Capacity = q.m_Capacity ∧
      q.Clear.m_Container = []) ∧
    (∃ q3 : Queue Nat, run [Op.push 1, Op.push 2, Op.push 3] = Except.ok q3 ∧
      q3.Size = 3 ∧ q3.Clear.Size = 0 ∧ q3.Clear.Capacity = q3.Capacity) := by
  constructor
  · intro q
    exact ⟨rfl, rfl, rfl⟩
  · exact ⟨⟨[1, 2, 3], 3, 4⟩, rfl, rfl, rfl, rfl⟩

/-- C10: self-assignment is a complete no-op for both assignment forms:
the guard `this == &other` fires first, so copy assignment returns the
queue unchanged, and move assignment (at the pointer level, since its
non-self path is the buggy one) leaves both the object and its fields
exactly as they were. -/
theorem self_assign_noop (T : Type) (q : Queue T) (r : QueueRep) (fresh : Nat) :
    q.copyAssign q true = q ∧ moveAssignRep r r true fresh = (r, r) := by
  constructor
  · unfold Queue.copyAssign
    rw [if_pos rfl]
  · unfold moveAssignRep
    rw [if_pos rfl]

/-- C2 (code bug): the move constructor as written, at a source with
buffer address 100, size 2, capacity 4, and a fresh allocation at
address 200: the constructed object's container pointer is 4 — the old
capacity, not the source's buffer 100 — and the source is left still
holding buffer 100 (with size 0 and capacity `INITIAL_CAPACITY`), not
the fresh minimal buffer 200.  The buffer is never transferred and the
source is not reset to a default-constructed state. -/
theorem move_ctor_bug :
    moveCtorRep ⟨100, 2, 4⟩ 200 = (⟨4, 2, 4⟩, ⟨100, 0, 1⟩) ∧
    (moveCtorRep ⟨100, 2, 4⟩ 200).1.m_Container ≠ (⟨100, 2, 4⟩ : QueueRep).m_Container ∧
    (moveCtorRep ⟨100, 2, 4⟩ 200).2.m_Container = (⟨100, 2, 4⟩ : QueueRep).m_Container ∧
    (moveCtorRep ⟨100, 2, 4⟩ 200).2.m_Container ≠ 200 := by
  decide

/-- C3 (code bug): move assignment as written, for distinct queues — the
target holding buffer 50 (size 1, capacity 2), the source holding buffer
100 (size 2, capacity 4), fresh allocation at 200: the target's
container pointer becomes 4 (the source's capacity, not its buffer 100),
the target's old buffer 50 is neither cleared nor freed and its address
survives nowhere (it leaks together with its live element), and the
source still holds buffer 100 instead of the fresh buffer 200. -/
theorem move_assign_bug :
    moveAssignRep ⟨50, 1, 2⟩ ⟨100, 2, 4⟩ false 200 = (⟨4, 2, 4⟩, ⟨100, 0, 1⟩) ∧
    (moveAssignRep ⟨50, 1, 2⟩ ⟨100, 2, 4⟩ false 200).1.m_Container ≠
      (⟨100, 2, 4⟩ : QueueRep).m_Container ∧
    (moveAssignRep ⟨50, 1, 2⟩ ⟨100, 2, 4⟩ false 200).2.m_Container =
      (⟨100, 2, 4⟩ : QueueRep).m_Container := by
  decide

/-- C5: the invariant `m_Size ≤ m_Capacity` holds after default
construction and is preserved by every public operation — copy
construction, copy assignment, the move operations (at the pointer
level, since their non-self paths are the buggy ones: the size and
capacity fields still satisfy the bound), `Push`, `Pop`, and `Clear` —
and the capacity never decreases across `Push`, `Pop`, or `Clear`. -/
theorem capacity_ge_size_invariant (T : Type) :
    ((Queue.init T).m_Size ≤ (Queue.init T).m_Capacity) ∧
    (∀ q : Queue T, q.m_Size ≤ q.m_Capacity →
      q.copyCtor.m_Size ≤ q.copyCtor.m_Capacity) ∧
    (∀ (q other : Queue T) (same : Bool), q.m_Size ≤ q.m_Capacity →
      other.m_Size ≤ other.m_Capacity →
      (q.copyAssign other same).m_Size ≤ (q.copyAssign other same).m_Capacity) ∧
    (∀ (other : QueueRep) (fresh : Nat), other.m_Size ≤ other.m_Capacity →
      (moveCtorRep other fresh).1.m_Size ≤ (moveCtorRep other fresh).1.m_Capacity ∧
      (moveCtorRep other fresh).2.m_Size ≤ (moveCtorRep other fresh).2.m_Capacity) ∧
    (∀ (q other : QueueRep) (same : Bool) (fresh : Nat),
      q.m_Size ≤ q.m_Capacity → other.m_Size ≤ other.m_Capacity →
      (moveAssignRep q other same fresh).1.m_Size ≤
        (moveAssignRep q other same fresh).1.m_Capacity ∧
      (moveAssignRep q other same fresh).2.m_Size ≤
        (moveAssignRep q other same fresh).2.m_Capacity) ∧
    (∀ (q q' : Queue T) (v : T), q.Inv → q.Push v = Except.ok q' →
      q'.m_Size ≤ q'.m_Capacity ∧ q.m_Capacity ≤ q'.m_Capacity) ∧
    (∀ q : Queue T, q.m_Size ≤ q.m_Capacity →
      q.Pop.m_Size ≤ q.Pop.m_Capacity ∧ q.Pop.m_Capacity = q.m_Capacity) ∧
    (∀ q : Queue T, q.Clear.m_Size ≤ q.Clear.m_Capacity ∧ q.Clear.m_Capacity = q.m_Capacity) := by
  refine ⟨Nat.zero_le _, ?_, ?_, ?_, ?_, ?_, ?_, ?_⟩
  · intro q h
    exact h
  · intro q other same hq hother
    unfold Queue.copyAssign
    cases same
    · simpa using hother
    · simpa using hq
  · intro other fresh h
    exact ⟨h, Nat.zero_le _⟩
  · intro q other same fresh hq hother
    unfold moveAssignRep
    cases same
    · simp only [Bool.false_eq_true, if_false]
      exact ⟨hother, Nat.zero_le _⟩
    · simp only [if_true]
      exact ⟨hq, hother⟩
  · intro q q' v h hok
    obtain ⟨hlen, hle, hpos⟩ := h
    rw [push_spec q v ⟨hlen, hle, hpos⟩] at hok
    cases hok
    constructor
    · dsimp only
      split <;> omega
    · dsimp only
      split <;> omega
  · intro q h
    unfold Queue.Pop
    by_cases hz : q.m_Size = 0
    · rw [if_pos hz]
      exact ⟨h, rfl⟩
    · rw [if_neg hz]
      exact ⟨by dsimp only; omega, rfl⟩
  · intro q
    exact ⟨Nat.zero_le _, rfl⟩

/-- Witness for C5 at concrete inputs for each hypothesis-bearing
conjunct. -/
theorem capacity_ge_size_invariant_witness :
    ((⟨[7], 1, 2⟩ : Queue Nat).copyCtor.m_Size ≤
      (⟨[7], 1, 2⟩ : Queue Nat).copyCtor.m_Capacity) ∧
    (((⟨[7], 1, 2⟩ : Queue Nat).copyAssign ⟨[4, 5], 2, 3⟩ false).m_Size ≤
      ((⟨[7], 1, 2⟩ : Queue Nat).copyAssign ⟨[4, 5], 2, 3⟩ false).m_Capacity) ∧
    ((moveCtorRep ⟨64, 3, 8⟩ 128).1.m_Size ≤ (moveCtorRep ⟨64, 3, 8⟩ 128).1.m_Capacity ∧
     (moveCtorRep ⟨64, 3, 8⟩ 128).2.m_Size ≤ (moveCtorRep ⟨64, 3, 8⟩ 128).2.m_Capacity) ∧
    ((moveAssignRep ⟨16, 1, 2⟩ ⟨64, 3, 8⟩ false 128).1.m_Size ≤
      (moveAssignRep ⟨16, 1, 2⟩ ⟨64, 3, 8⟩ false 128).1.m_Capacity ∧
     (moveAssignRep ⟨16, 1, 2⟩ ⟨64, 3, 8⟩ false 128).2.m_Size ≤
      (moveAssignRep ⟨16, 1, 2⟩ ⟨64, 3, 8⟩ false 128).2.m_Capacity) ∧
    ((⟨[1, 2], 2, 2⟩ : Queue Nat).m_Size ≤ (⟨[1, 2], 2, 2⟩ : Queue Nat).m_Capacity ∧
     (⟨[1], 1, 1⟩ : Queue Nat).Capacity ≤ (⟨[1, 2], 2, 2⟩ : Queue Nat).Capacity) ∧
    ((⟨[4, 5], 2, 4⟩ : Queue Nat).Pop.m_Size ≤ (⟨[4, 5], 2, 4⟩ : Queue Nat).Pop.m_Capacity ∧
     (⟨[4, 5], 2, 4⟩ : Queue Nat).Pop.m_Capacity = 4) :=
  ⟨(capacity_ge_size_invariant Nat).2.1 ⟨[7], 1, 2⟩ (by decide),
   (capacity_ge_size_invariant Nat).2.2.1 ⟨[7], 1, 2⟩ ⟨[4, 5], 2, 3⟩ false
     (by decide) (by decide),
   (capacity_ge_size_invariant Nat).2.2.2.1 ⟨64, 3, 8⟩ 128 (by decide),
   (capacity_ge_size_invariant Nat).2.2.2.2.1 ⟨16, 1, 2⟩ ⟨64, 3, 8⟩ false 128
     (by decide) (by decide),
   (capacity_ge_size_invariant Nat).2.2.2.2.2.1 ⟨[1], 1, 1⟩ ⟨[1, 2], 2, 2⟩ 2
     (by decide) rfl,
   (capacity_ge_size_invariant Nat).2.2.2.2.2.2.1 ⟨[4, 5], 2, 4⟩ (by decide)⟩

/-- C6: copy construction yields a queue whose size, capacity, and live
elements (in order) equal the source's, and the source is read but not
modified (the pointer-level copy returns it unchanged); the copy is
independent of the original because its buffer is the fresh allocation
returned by `::operator new` — an address distinct from the source's
buffer — so no subsequent `Push`/`Pop`/`Clear` on either queue can
touch the other's storage. -/
theorem copy_ctor_independent (T : Type) :
    (∀ q : Queue T, q.Inv →
      q.copyCtor.Size = q.Size ∧ q.copyCtor.Capacity = q.Capacity ∧
      q.copyCtor.m_Container = q.m_Container) ∧
    (∀ (other : QueueRep) (fresh : Nat),
      (copyCtorRep other fresh).2 = other ∧
      (copyCtorRep other fresh).1.m_Container = fresh ∧
      (fresh ≠ other.m_Container →
        (copyCtorRep other fresh).1.m_Container ≠ other.m_Container)) := by
  constructor
  · intro q h
    refine ⟨rfl, rfl, ?_⟩
    show q.m_Container.take q.m_Size = q.m_Container
    rw [h.1, List.take_length]
  · intro other fresh
    exact ⟨rfl, rfl, fun hne => hne⟩

/-- Witness for C6 at a concrete input. -/
theorem copy_ctor_independent_witness :
    ((⟨[9], 1, 1⟩ : Queue Nat).copyCtor.Size = (⟨[9], 1, 1⟩ : Queue Nat).Size ∧
     (⟨[9], 1, 1⟩ : Queue Nat).copyCtor.Capacity = (⟨[9], 1, 1⟩ : Queue Nat).Capacity ∧
     (⟨[9], 1, 1⟩ : Queue Nat).copyCtor.m_Container = [9]) ∧
    (copyCtorRep ⟨100, 1, 1⟩ 300).1.m_Container ≠ (⟨100, 1, 1⟩ : QueueRep).m_Container :=
  ⟨(copy_ctor_independent Nat).1 ⟨[9], 1, 1⟩ (by decide),
   ((copy_ctor_independent Nat).2 ⟨100, 1, 1⟩ 300).2.2 (by decide)⟩

/-- C8: on a well-formed queue, `Push(value)` grows the capacity to
exactly `m_Capacity * 2` when `m_Size = m_Capacity` and leaves it alone
otherwise; the new element lands in slot `m_Size` (the back equals the
pushed value), the size increments by one, and every previously held
element keeps its value and position. -/
theorem push_grows_and_appends (T : Type) (q : Queue T) (v : T) (h : q.Inv) :
    ∃ q', q.Push v = Except.ok q' ∧
      q'.m_Capacity = (if q.m_Size = q.m_Capacity then q.m_Capacity * 2 else q.m_Capacity) ∧
      q'.m_Size = q.m_Size + 1 ∧
      q'.m_Container = q.m_Container ++ [v] ∧
      q'.Back = some v ∧
      (∀ i : Nat, i < q.m_Size → q'.m_Container.get? i = q.m_Container.get? i) := by
  obtain ⟨hlen, hle, hpos⟩ := h
  refine ⟨_, push_spec q v ⟨hlen, hle, hpos⟩, ?_, rfl, rfl, ?_, ?_⟩
  · dsimp only
    by_cases hc : q.m_Capacity ≤ q.m_Size
    · rw [if_pos hc, if_pos (Nat.le_antisymm hle hc)]
    · rw [if_neg hc, if_neg fun he => hc (Nat.le_of_eq he.symm)]
  · show (q.m_Container ++ [v]).get? (q.m_Size + 1 - 1) = some v
    rw [Nat.add_sub_cancel, hlen]
    exact List.get?_concat_length _ _
  · intro i hi
    show (q.m_Container ++ [v]).get? i = q.m_Container.get? i
    exact List.get?_append (by omega)

/-- Witness for C8 at a concrete input: pushing 2 onto the full
one-element queue holding 1 doubles the capacity to 2 and appends. -/
theorem push_grows_and_appends_witness :
    ∃ q', (⟨[1], 1, 1⟩ : Queue Nat).Push 2 = Except.ok q' ∧
      q'.m_Capacity = (if (1 : Nat) = 1 then 1 * 2 else 1) ∧
      q'.m_Size = 1 + 1 ∧
      q'.m_Container = [1] ++ [2] ∧
      q'.Back = some 2 ∧
      (∀ i : Nat, i < 1 → q'.m_Container.get? i = [1].get? i) :=
  push_grows_and_appends Nat ⟨[1], 1, 1⟩ 2 (by decide)
